import Mathlib

/-!
Shallow embedding of the four ZeroMQ benchmark executables of this
repository: `local_lat.cpp` (latency server), `remote_lat.cpp`
(latency client), `local_thr.cpp` (throughput receiver) and
`remote_thr.cpp` (throughput sender).

Modelling conventions, uniform across the file:

* A message is an opaque byte buffer, modelled as a list of naturals.
* Each program's receive operations are drawn from an input script of
  type `List (Option Msg)`: `some m` is a receive call that delivers
  the message `m`, `none` is a receive call that reports failure.
  Send operations are assumed to be delivered.
* C `double` arithmetic is modelled exactly over `ℚ`; C `int` values
  are modelled as `Int` (the claims only exercise values for which
  signed overflow, which would be undefined behaviour, cannot occur);
  C `size_t` values are modelled as `ℕ` with explicit reduction
  modulo `2 ^ 64` at each conversion from a signed value.
-/

/-- A message: an opaque byte buffer. -/
abbrev Msg := List ℕ

/-- Components of the size-mismatch diagnostic printed to standard
error: the expected size, the actual size, and — only when the
source's message text contains it — the index of the offending
message. -/
structure ErrDiag where
  expected : ℕ
  actual : ℕ
  index : Option ℕ
deriving DecidableEq

/-! ### Argument parsing and validation (shared by all four programs) -/

/-- The whitespace characters skipped by `std::atoi` (C `isspace`). -/
def isSpaceChar (c : Char) : Bool :=
  c = ' ' || c = '\t' || c = '\n' || c = '\x0b' || c = '\x0c' || c = '\r'

/-- Accumulate the longest run of leading decimal digits onto `acc`,
stopping at the first non-digit, as `std::atoi` does after its sign
handling. -/
def atoiDigits : List Char → ℕ → ℕ
  | [], acc => acc
  | c :: rest, acc =>
    if c.isDigit then atoiDigits rest (acc * 10 + (c.toNat - 48)) else acc

/-- Model of `std::atoi`: skip leading whitespace, read an optional
sign, then the longest run of leading digits; any other leading
character yields 0.  Overflow of the C `int` result is undefined
behaviour and is not modelled; the claims only exercise in-range
values. -/
def atoiInt : List Char → Int
  | [] => 0
  | c :: rest =>
    if isSpaceChar c then atoiInt rest
    else if c = '-' then -(atoiDigits rest 0 : Int)
    else if c = '+' then (atoiDigits rest 0 : Int)
    else if c.isDigit then (atoiDigits rest (c.toNat - 48) : Int)
    else 0

/-- Conversion of a signed value to `size_t` (64-bit unsigned), as in
`size_t message_size = std::atoi(argv[2]);`: reduction modulo
`2 ^ 64`. -/
def toSizeT (z : Int) : ℕ := (z % (2 ^ 64)).toNat

/-- How far `main` gets before touching the transport: `usageError`
means the `argc != 4` check fired, `configError` means the positivity
check fired; `transport` means both checks passed and the socket code
is reached. -/
inductive MainPhase where
  | usageError
  | configError
  | transport
deriving DecidableEq

/-- The argument validation shared verbatim by all four programs:
`argc != 4` prints usage and returns 1; otherwise
`message_size <= 0 || count <= 0` returns 1.  `message_size` is a
`size_t`, so its comparison with 0 is an unsigned comparison of the
wrapped value, while `count` is a signed `int`. -/
def validatePhase (argc : ℕ) (sizeVal countVal : Int) : MainPhase :=
  if argc ≠ 4 then .usageError
  else if toSizeT sizeVal ≤ 0 ∨ countVal ≤ 0 then .configError
  else .transport

/-- Validation applied to the raw CLI strings via `std::atoi`. -/
def argCheck (argc : ℕ) (sizeStr countStr : List Char) : MainPhase :=
  validatePhase argc (atoiInt sizeStr) (atoiInt countStr)

/-- The `message_size` value a program stores from its CLI string. -/
def storedMessageSize (sizeStr : List Char) : ℕ := toSizeT (atoiInt sizeStr)

/-- Exit status determined by the validation phase: `some 1` when
validation fails before any transport operation, `none` when the run
continues into the transport code (where the status is decided
later). -/
def MainPhase.exitStatus : MainPhase → Option ℕ
  | .usageError => some 1
  | .configError => some 1
  | .transport => none

/-! ### `local_lat.cpp` — latency server (echo responder) -/

/-- Result of a latency-server run.  `sent` is the list of echoed
messages in chronological order; `ok` additionally returns the
unconsumed remainder of the input script.  `recvFail` and `sizeFail`
are the two fatal error exits of the echo loop (`return 1`), carrying
exactly the data their diagnostics print. -/
inductive LatResult where
  | blocked (sent : List Msg)
  | recvFail (i : ℕ) (sent : List Msg)
  | sizeFail (diag : ErrDiag) (sent : List Msg)
  | ok (sent : List Msg) (rest : List (Option Msg))
deriving DecidableEq

/-- Record one more echoed message at the front of the send log. -/
def LatResult.consSent (m : Msg) : LatResult → LatResult
  | .blocked sent => .blocked (m :: sent)
  | .recvFail i sent => .recvFail i (m :: sent)
  | .sizeFail d sent => .sizeFail d (m :: sent)
  | .ok sent rest => .ok (m :: sent) rest

/-- Process exit status of a latency-server outcome (`none` when the
program is still blocked in a receive). -/
def LatResult.exitStatus : LatResult → Option ℕ
  | .blocked _ => none
  | .recvFail _ _ => some 1
  | .sizeFail _ _ => some 1
  | .ok _ _ => some 0

/-- The echo loop of `local_lat.cpp` (lines 49–71): `rem` iterations
remain and `i` is the loop counter.  Each iteration receives one
message; a failed receive aborts with an indexed diagnostic, a size
mismatch aborts with a diagnostic carrying the expected and actual
sizes but no index, and otherwise the received message is sent back
unchanged. -/
def latServerLoop (s : ℕ) : ℕ → ℕ → List (Option Msg) → LatResult
  | 0, _, inputs => .ok [] inputs
  | _ + 1, _, [] => .blocked []
  | _ + 1, i, none :: _ => .recvFail i []
  | rem + 1, i, some m :: rest =>
    if m.length ≠ s then .sizeFail ⟨s, m.length, none⟩ []
    else (latServerLoop s rem (i + 1) rest).consSent m

/-- `local_lat.cpp` after argument validation: one warm-up
receive/send pair whose receive result and message size are never
checked (lines 43–46; a failed warm-up receive leaves the default
empty message), then the echo loop for `roundtrip_count = n`
iterations. -/
def localLatRun (s n : ℕ) (inputs : List (Option Msg)) : LatResult :=
  match inputs with
  | [] => .blocked []
  | w :: rest => (latServerLoop s n 0 rest).consSent (w.getD [])

/-! ### `remote_lat.cpp` — latency client (round-trip timer) -/

/-- The constant filler byte `'X'` used by both active sides. -/
def fillByte : ℕ := 88

/-- The reusable send buffer: `message_size` copies of `'X'`. -/
def fillMsg (s : ℕ) : Msg := List.replicate s fillByte

/-- Result of a latency-client run.  `sent` is the list of requests
sent, in order; `ok` returns the unconsumed reply script. -/
inductive ClientResult where
  | blocked (sent : List Msg)
  | recvFail (i : ℕ) (sent : List Msg)
  | sizeFail (diag : ErrDiag) (sent : List Msg)
  | ok (sent : List Msg) (rest : List (Option Msg))
deriving DecidableEq

/-- Record one more sent request at the front of the send log. -/
def ClientResult.consSent (m : Msg) : ClientResult → ClientResult
  | .blocked sent => .blocked (m :: sent)
  | .recvFail i sent => .recvFail i (m :: sent)
  | .sizeFail d sent => .sizeFail d (m :: sent)
  | .ok sent rest => .ok (m :: sent) rest

/-- Process exit status of a latency-client outcome. -/
def ClientResult.exitStatus : ClientResult → Option ℕ
  | .blocked _ => none
  | .recvFail _ _ => some 1
  | .sizeFail _ _ => some 1
  | .ok _ _ => some 0

/-- The request/reply loop of `remote_lat.cpp` (lines 58–81): each of
the `rem` remaining iterations sends the filler request and then
receives the reply; a failed receive aborts with an indexed
diagnostic, and a wrong-sized reply aborts with a diagnostic carrying
the expected and actual sizes but no index. -/
def remoteLatLoop (s : ℕ) : ℕ → ℕ → List (Option Msg) → ClientResult
  | 0, _, replies => .ok [] replies
  | _ + 1, _, [] => .blocked [fillMsg s]
  | _ + 1, i, none :: _ => .recvFail i [fillMsg s]
  | rem + 1, i, some r :: rest =>
    if r.length ≠ s then .sizeFail ⟨s, r.length, none⟩ [fillMsg s]
    else (remoteLatLoop s rem (i + 1) rest).consSent (fillMsg s)

/-- `remote_lat.cpp` after argument validation: a warm-up send and a
warm-up receive whose result and reply size are never checked (lines
47–52), then `roundtrip_count = n` request/reply cycles. -/
def remoteLatRun (s n : ℕ) (replies : List (Option Msg)) : ClientResult :=
  match replies with
  | [] => .blocked [fillMsg s]
  | _ :: rest => (remoteLatLoop s n 0 rest).consSent (fillMsg s)

/-- The three figures printed by the latency client (lines 84–94),
with the `double` arithmetic modelled exactly over `ℚ`:
`latency = elapsed / (roundtrip_count * 2)` where the product
`roundtrip_count * 2` is formed first, and
`message_rate = roundtrip_count * 1000000.0 / elapsed`. -/
structure LatReport where
  latency : ℚ
  elapsedUs : ℚ
  msgRate : ℚ
deriving DecidableEq

/-- The latency client's report for a measured elapsed time of
`elapsedUs` microseconds and `roundtrip_count = n`. -/
def remoteLatReport (elapsedUs : ℚ) (n : Int) : LatReport :=
  { latency := elapsedUs / ((n * 2 : Int) : ℚ)
  , elapsedUs := elapsedUs
  , msgRate := (n : ℚ) * 1000000 / elapsedUs }

/-! ### `local_thr.cpp` — throughput receiver (counting endpoint) -/

/-- One progress line `Progress: p% (k/total)`. -/
structure ProgressLine where
  percent : ℕ
  soFar : ℕ
  total : ℕ
deriving DecidableEq

/-- The progress line printed at ordinal `k` of `count`:
`((i + 1) * 100) / message_count` percent, integer division. -/
def mkProgress (count k : ℕ) : ProgressLine := ⟨k * 100 / count, k, count⟩

/-- The progress-printing condition shared by both throughput
programs: `message_count > 100 && (i + 1) % (message_count / 10) == 0`
with `k = i + 1`. -/
def progressAt (count k : ℕ) : Bool :=
  decide (100 < count) && decide (k % (count / 10) = 0)

/-- Result of a throughput-receiver run.  `lines` collects the
progress lines in chronological order; `ok` carries the total number
of messages received and the unconsumed input script.  The first
message's failure diagnostics carry no index (`recvFail none` and a
`sizeFail` with `index = none`), matching the source's wording. -/
inductive ThrResult where
  | blocked (lines : List ProgressLine)
  | recvFail (i : Option ℕ) (lines : List ProgressLine)
  | sizeFail (diag : ErrDiag) (lines : List ProgressLine)
  | ok (received : ℕ) (lines : List ProgressLine) (rest : List (Option Msg))
deriving DecidableEq

/-- Record one more printed progress line at the front. -/
def ThrResult.consLine (l : ProgressLine) : ThrResult → ThrResult
  | .blocked lines => .blocked (l :: lines)
  | .recvFail i lines => .recvFail i (l :: lines)
  | .sizeFail d lines => .sizeFail d (l :: lines)
  | .ok n lines rest => .ok n (l :: lines) rest

/-- Process exit status of a throughput-receiver outcome. -/
def ThrResult.exitStatus : ThrResult → Option ℕ
  | .blocked _ => none
  | .recvFail _ _ => some 1
  | .sizeFail _ _ => some 1
  | .ok _ _ _ => some 0

/-- The measured receive loop of `local_thr.cpp` (lines 64–85):
iterations `i = 1, …, message_count - 1` (`rem` of them remain), each
receiving one message, aborting on a failed receive or on a size
mismatch — both with the index `i` in the diagnostic — and printing a
progress line at every 10% step when `count > 100`. -/
def localThrLoop (s count : ℕ) : ℕ → ℕ → List (Option Msg) → ThrResult
  | 0, _, inputs => .ok count [] inputs
  | _ + 1, _, [] => .blocked []
  | _ + 1, i, none :: _ => .recvFail (some i) []
  | rem + 1, i, some m :: rest =>
    if m.length ≠ s then .sizeFail ⟨s, m.length, some i⟩ []
    else if progressAt count (i + 1) then
      (localThrLoop s count rem (i + 1) rest).consLine (mkProgress count (i + 1))
    else localThrLoop s count rem (i + 1) rest

/-- `local_thr.cpp` after argument validation: the first message is
received outside the timed loop and size-checked with no index in its
diagnostic (lines 44–58), then the measured loop runs
`message_count - 1` iterations starting at `i = 1`. -/
def localThrRun (s count : ℕ) (inputs : List (Option Msg)) : ThrResult :=
  match inputs with
  | [] => .blocked []
  | none :: _ => .recvFail none []
  | some first :: rest =>
    if first.length ≠ s then .sizeFail ⟨s, first.length, none⟩ []
    else localThrLoop s count (count - 1) 1 rest

/-- The derived figures printed by `local_thr.cpp` (lines 92–103),
with the `double` arithmetic modelled exactly over `ℚ`.  The byte
total `message_size * message_count` is computed in `size_t`
arithmetic, hence the reduction modulo `2 ^ 64`. -/
structure ThrReport where
  elapsedSec : ℚ
  throughput : ℚ
  megabits : ℚ
  totalMB : ℚ
deriving DecidableEq

/-- The throughput receiver's report for a measured elapsed time of
`elapsedUs` microseconds, message size `s` and `message_count =
count`.  `elapsed_sec` is used directly as the denominator of the
throughput division; no lower bound is imposed on it. -/
def localThrReport (elapsedUs : ℚ) (s : ℕ) (count : Int) : ThrReport :=
  let elapsedSec : ℚ := elapsedUs / 1000000
  let throughput : ℚ := ((count - 1 : Int) : ℚ) / elapsedSec
  { elapsedSec := elapsedSec
  , throughput := throughput
  , megabits := throughput * (s : ℚ) * 8 / 1000000
  , totalMB := (toSizeT ((s : Int) * count) : ℚ) / (1024 * 1024) }

/-! ### `remote_thr.cpp` — throughput sender (bulk emitter) -/

/-- The send loop of `remote_thr.cpp` (lines 54–68): `rem` sends
remain and `i` is the loop counter; each iteration sends one filler
message and prints the same style of progress line as the receiver.
Returns the sent messages and the progress lines, in order. -/
def remoteThrLoop (s count : ℕ) : ℕ → ℕ → List Msg × List ProgressLine
  | 0, _ => ([], [])
  | rem + 1, i =>
    let r := remoteThrLoop s count rem (i + 1)
    if progressAt count (i + 1) then
      (fillMsg s :: r.1, mkProgress count (i + 1) :: r.2)
    else (fillMsg s :: r.1, r.2)

/-- `remote_thr.cpp` after argument validation: send `message_count`
filler messages, the loop counter starting at `i = 0`. -/
def remoteThrRun (s count : ℕ) : List Msg × List ProgressLine :=
  remoteThrLoop s count count 0

/-- Emission rule stated from the spec's words, for comparison with
the code's `progressAt`: a progress line is due at ordinal `k` exactly
when cumulative progress crosses a 10% boundary of `count`, i.e. when
`⌊k·10/count⌋` exceeds `⌊(k-1)·10/count⌋`. -/
def crossesTenPercent (count k : ℕ) : Bool :=
  decide ((k - 1) * 10 / count < k * 10 / count)

/-! ### Helper lemmas -/

/-- On a script of well-sized messages the latency-server echo loop
consumes one input per iteration, echoes each received message, and
leaves the remainder of the script untouched. -/
theorem latServerLoop_ok (s : ℕ) (msgs : List Msg) :
    ∀ (i : ℕ) (extra : List (Option Msg)), (∀ m ∈ msgs, m.length = s) →
      latServerLoop s msgs.length i (msgs.map some ++ extra) = .ok msgs extra := by
  induction msgs with
  | nil => intro i extra _; rfl
  | cons m rest ih =>
    intro i extra h
    have hm : m.length = s := h m (List.mem_cons_self _ _)
    simp only [List.length_cons, List.map_cons, List.cons_append, latServerLoop]
    rw [if_neg (by simp [hm])]
    simp only [List.append_eq]
    rw [ih (i + 1) extra (fun x hx => h x (List.mem_cons_of_mem _ hx))]
    rfl

/-- On a script of well-sized replies the latency-client loop sends
one filler request per iteration and succeeds, leaving the remainder
of the reply script untouched. -/
theorem remoteLatLoop_ok (s : ℕ) (rs : List Msg) :
    ∀ (i : ℕ) (extra : List (Option Msg)), (∀ r ∈ rs, r.length = s) →
      remoteLatLoop s rs.length i (rs.map some ++ extra) =
        .ok (List.replicate rs.length (fillMsg s)) extra := by
  induction rs with
  | nil => intro i extra _; rfl
  | cons r rest ih =>
    intro i extra h
    have hr : r.length = s := h r (List.mem_cons_self _ _)
    simp only [List.length_cons, List.map_cons, List.cons_append, remoteLatLoop]
    rw [if_neg (by simp [hr])]
    simp only [List.append_eq]
    rw [ih (i + 1) extra (fun x hx => h x (List.mem_cons_of_mem _ hx)), List.replicate_succ]
    rfl

/-- On a script of well-sized messages the throughput-receiver loop
consumes one input per iteration and prints a progress line exactly at
the ordinals `k` (with `i < k ≤ i + rem`) satisfying the source's
condition `progressAt`. -/
theorem localThrLoop_ok (s c : ℕ) (msgs : List Msg) :
    ∀ (i : ℕ) (extra : List (Option Msg)), (∀ m ∈ msgs, m.length = s) →
      localThrLoop s c msgs.length i (msgs.map some ++ extra) =
        .ok c (((List.range' (i + 1) msgs.length).filter
          (fun k => progressAt c k)).map (mkProgress c)) extra := by
  induction msgs with
  | nil => intro i extra _; rfl
  | cons m rest ih =>
    intro i extra h
    have hm : m.length = s := h m (List.mem_cons_self _ _)
    simp only [List.length_cons, List.map_cons, List.cons_append, localThrLoop]
    rw [if_neg (by simp [hm]), List.range'_succ, List.filter_cons]
    simp only [List.append_eq]
    by_cases hp : progressAt c (i + 1)
    · rw [if_pos (by simpa using hp),
        ih (i + 1) extra (fun x hx => h x (List.mem_cons_of_mem _ hx)), hp]
      rfl
    · rw [if_neg (by simpa using hp),
        ih (i + 1) extra (fun x hx => h x (List.mem_cons_of_mem _ hx))]
      simp [hp]

/-- Closed form of the throughput-sender loop: `rem` filler messages
are sent, and a progress line is printed exactly at the ordinals `k`
(with `i < k ≤ i + rem`) satisfying the source's condition
`progressAt`. -/
theorem remoteThrLoop_eq (s c : ℕ) : ∀ (rem i : ℕ),
    remoteThrLoop s c rem i =
      (List.replicate rem (fillMsg s),
        ((List.range' (i + 1) rem).filter (fun k => progressAt c k)).map (mkProgress c)) := by
  intro rem
  induction rem with
  | zero => intro i; rfl
  | succ n ih =>
    intro i
    simp only [remoteThrLoop, ih (i + 1), List.range'_succ, List.filter_cons,
      List.replicate_succ]
    by_cases hp : progressAt c (i + 1) <;> simp [hp]

/-! ### Claims -/

/-- C1: for every successful latency-client run with
`roundtrip_count = n > 0` and measured elapsed time `e` microseconds,
the reported average latency equals `e / (n * 2)` and the reported
message rate equals `n * 1000000 / e`. -/
theorem spec2_C1 (n : Int) (e : ℚ) (_hn : 0 < n) :
    (remoteLatReport e n).latency = e / ((n : ℚ) * 2) ∧
    (remoteLatReport e n).msgRate = (n : ℚ) * 1000000 / e := by
  refine ⟨?_, rfl⟩
  simp only [remoteLatReport]
  push_cast
  rfl

/-- Witness for C1 at `n = 100`, `e = 12345`. -/
theorem spec2_C1_witness :
    (remoteLatReport 12345 100).latency = 12345 / ((100 : ℚ) * 2) ∧
    (remoteLatReport 12345 100).msgRate = (100 : ℚ) * 1000000 / 12345 :=
  spec2_C1 100 12345 (by norm_num)

/-- C2: for every successful throughput-receiver run with
`message_count = c > 0`, `message_size = s > 0` and elapsed seconds
`t` (the reported `elapsed_sec`), the reported throughput equals
`(c - 1) / t`, the reported megabit rate equals exactly
`throughput * s * 8 / 1000000`, and the reported total data volume in
MB equals `s * c / (1024 * 1024)`.  The bound on `s * c` keeps the
`size_t` byte total below its wrap-around point; it holds for every
configuration reachable from the CLI with positive arguments. -/
theorem spec2_C2 (s : ℕ) (c : Int) (e : ℚ) (hs : 0 < s) (hc : 0 < c)
    (hb : (s : Int) * c < 2 ^ 64) :
    (localThrReport e s c).throughput = ((c : ℚ) - 1) / (localThrReport e s c).elapsedSec ∧
    (localThrReport e s c).megabits =
      (localThrReport e s c).throughput * (s : ℚ) * 8 / 1000000 ∧
    (localThrReport e s c).totalMB = (s : ℚ) * (c : ℚ) / (1024 * 1024) := by
  refine ⟨?_, rfl, ?_⟩
  · simp only [localThrReport]
    push_cast
    rfl
  · have hnn : (0 : Int) ≤ (s : Int) * c := by positivity
    simp only [localThrReport, toSizeT]
    rw [Int.emod_eq_of_lt hnn hb]
    have hcast : ((((s : Int) * c).toNat : ℕ) : ℚ) = (s : ℚ) * (c : ℚ) := by
      calc ((((s : Int) * c).toNat : ℕ) : ℚ)
          = (((((s : Int) * c).toNat : ℕ) : ℤ) : ℚ) := by norm_cast
        _ = (((s : Int) * c : ℤ) : ℚ) := by rw [Int.toNat_of_nonneg hnn]
        _ = (s : ℚ) * (c : ℚ) := by push_cast; ring
    rw [hcast]

/-- Witness for C2 at `s = 64`, `c = 1000`, `e = 2500000`. -/
theorem spec2_C2_witness :
    (localThrReport 2500000 64 1000).throughput =
      ((1000 : ℚ) - 1) / (localThrReport 2500000 64 1000).elapsedSec ∧
    (localThrReport 2500000 64 1000).megabits =
      (localThrReport 2500000 64 1000).throughput * (64 : ℚ) * 8 / 1000000 ∧
    (localThrReport 2500000 64 1000).totalMB = (64 : ℚ) * (1000 : ℚ) / (1024 * 1024) :=
  spec2_C2 64 1000 2500000 (by norm_num) (by norm_num) (by norm_num)

/-- C3: with `roundtrip_count = n > 0`, a successful latency-server
run on a script of one warm-up message followed by `n` well-sized
messages performs exactly `n + 1` receive/send pairs — the untimed
warm-up pair plus the `n` counted pairs — echoing `n + 1` messages and
leaving any further input untouched (no other transport exchange). -/
theorem spec2_C3 (s n : ℕ) (w : Msg) (msgs : List Msg) (extra : List (Option Msg))
    (_hn : 0 < n) (hlen : msgs.length = n) (hsz : ∀ m ∈ msgs, m.length = s) :
    localLatRun s n (some w :: (msgs.map some ++ extra)) = .ok (w :: msgs) extra ∧
    (w :: msgs).length = n + 1 := by
  subst hlen
  refine ⟨?_, by simp⟩
  simp only [localLatRun]
  rw [latServerLoop_ok s msgs 0 extra hsz]
  rfl

/-- Witness for C3 at `s = 4`, `n = 2`. -/
theorem spec2_C3_witness :
    localLatRun 4 2 (some [9] :: (([[1, 2, 3, 4], [5, 6, 7, 8]] : List Msg).map some ++ [])) =
      .ok [[9], [1, 2, 3, 4], [5, 6, 7, 8]] [] ∧
    ([[9], [1, 2, 3, 4], [5, 6, 7, 8]] : List Msg).length = 2 + 1 :=
  spec2_C3 4 2 [9] [[1, 2, 3, 4], [5, 6, 7, 8]] [] (by norm_num) (by decide) (by decide)

/-- C4: the echo property of the latency server — a counted-loop
iteration that receives a message `m` of the configured size sends
back exactly `m`, byte-identical and for any payload content, and the
warm-up pair likewise echoes the received message unchanged. -/
theorem spec2_C4 (s rem i n : ℕ) (m : Msg) (rest : List (Option Msg)) (hm : m.length = s) :
    latServerLoop s (rem + 1) i (some m :: rest) =
      (latServerLoop s rem (i + 1) rest).consSent m ∧
    localLatRun s n (some m :: rest) = (latServerLoop s n 0 rest).consSent m := by
  constructor
  · simp [latServerLoop, hm]
  · rfl

/-- Witness for C4 at `s = 3`, `m = [7, 8, 9]`. -/
theorem spec2_C4_witness :
    latServerLoop 3 (0 + 1) 0 (some [7, 8, 9] :: []) =
      (latServerLoop 3 0 (0 + 1) []).consSent [7, 8, 9] ∧
    localLatRun 3 1 (some [7, 8, 9] :: []) = (latServerLoop 3 1 0 []).consSent [7, 8, 9] :=
  spec2_C4 3 0 0 1 [7, 8, 9] [] (by decide)

/-- C5 counterexample: the latency server's size-mismatch diagnostic
does not report the index of the offending message.  Configured size
4, mismatch at counted-loop index 0: the run aborts with the expected
and actual sizes, but the diagnostic's index component is `none`
rather than the offending index — refuting that every component
reports the message index. -/
theorem spec2_C5_cex :
    localLatRun 4 1 [some [1, 2, 3, 4], some [1, 2, 3]] =
      .sizeFail ⟨4, 3, none⟩ [[1, 2, 3, 4]] ∧
    (ErrDiag.mk 4 3 none).index ≠ some 0 := by
  exact ⟨rfl, by decide⟩

/-- C5 (amended): in every component a received message whose length
differs from the configured size aborts the run at once with exit
status 1, leaving the remainder of the script unprocessed, and the
diagnostic reports the expected and actual sizes; the offending
message index, however, appears only in the throughput receiver's
counted-loop diagnostic — the latency server, the latency client and
the throughput receiver's first-message diagnostic omit it. -/
theorem spec2_C5 (s c rem i : ℕ) (m : Msg) (rest : List (Option Msg))
    (hm : m.length ≠ s) :
    latServerLoop s (rem + 1) i (some m :: rest) = .sizeFail ⟨s, m.length, none⟩ [] ∧
    (latServerLoop s (rem + 1) i (some m :: rest)).exitStatus = some 1 ∧
    remoteLatLoop s (rem + 1) i (some m :: rest) = .sizeFail ⟨s, m.length, none⟩ [fillMsg s] ∧
    (remoteLatLoop s (rem + 1) i (some m :: rest)).exitStatus = some 1 ∧
    localThrLoop s c (rem + 1) i (some m :: rest) = .sizeFail ⟨s, m.length, some i⟩ [] ∧
    (localThrLoop s c (rem + 1) i (some m :: rest)).exitStatus = some 1 ∧
    localThrRun s c (some m :: rest) = .sizeFail ⟨s, m.length, none⟩ [] ∧
    (localThrRun s c (some m :: rest)).exitStatus = some 1 := by
  refine ⟨?_, ?_, ?_, ?_, ?_, ?_, ?_, ?_⟩ <;>
    simp [latServerLoop, remoteLatLoop, localThrLoop, localThrRun, hm,
      LatResult.exitStatus, ClientResult.exitStatus, ThrResult.exitStatus]

/-- Witness for C5 at `s = 2`, `m = [7]`, loop index 3. -/
theorem spec2_C5_witness :
    latServerLoop 2 (0 + 1) 3 (some [7] :: []) = .sizeFail ⟨2, 1, none⟩ [] ∧
    (latServerLoop 2 (0 + 1) 3 (some [7] :: [])).exitStatus = some 1 ∧
    remoteLatLoop 2 (0 + 1) 3 (some [7] :: []) = .sizeFail ⟨2, 1, none⟩ [fillMsg 2] ∧
    (remoteLatLoop 2 (0 + 1) 3 (some [7] :: [])).exitStatus = some 1 ∧
    localThrLoop 2 5 (0 + 1) 3 (some [7] :: []) = .sizeFail ⟨2, 1, some 3⟩ [] ∧
    (localThrLoop 2 5 (0 + 1) 3 (some [7] :: [])).exitStatus = some 1 ∧
    localThrRun 2 5 (some [7] :: []) = .sizeFail ⟨2, 1, none⟩ [] ∧
    (localThrRun 2 5 (some [7] :: [])).exitStatus = some 1 :=
  spec2_C5 2 5 0 3 [7] [] (by decide)

/-- C6 counterexample: the latency server's warm-up exchange is not
size-checked.  Configured size 4, warm-up message of length 3: the
server echoes it, completes the run and exits 0 — refuting that a
size mismatch on the warm-up exchange is fatal. -/
theorem spec2_C6_cex :
    localLatRun 4 1 [some [9, 9, 9], some [1, 2, 3, 4]] =
      .ok [[9, 9, 9], [1, 2, 3, 4]] [] ∧
    (localLatRun 4 1 [some [9, 9, 9], some [1, 2, 3, 4]]).exitStatus = some 0 := by
  exact ⟨rfl, rfl⟩

/-- C6 (amended): every message received in the counted loops is
checked against the configured size and a mismatch there is fatal with
exit status 1; the warm-up exchanges of the latency server and the
latency client, however, are not size-checked — a warm-up message of
any length, matching or not, is accepted silently and the run
completes with exit status 0. -/
theorem spec2_C6 (s n : ℕ) (w r : Msg) (msgs rs : List Msg)
    (_hw : w.length ≠ s) (_hr : r.length ≠ s)
    (hlen : msgs.length = n) (hsz : ∀ m ∈ msgs, m.length = s)
    (hrlen : rs.length = n) (hrs : ∀ x ∈ rs, x.length = s) :
    localLatRun s n (some w :: msgs.map some) = .ok (w :: msgs) [] ∧
    (localLatRun s n (some w :: msgs.map some)).exitStatus = some 0 ∧
    remoteLatRun s n (some r :: rs.map some) =
      .ok (List.replicate (n + 1) (fillMsg s)) [] ∧
    (remoteLatRun s n (some r :: rs.map some)).exitStatus = some 0 ∧
    (∀ (rem i : ℕ) (m : Msg) (rest : List (Option Msg)), m.length ≠ s →
      (latServerLoop s (rem + 1) i (some m :: rest)).exitStatus = some 1 ∧
      (remoteLatLoop s (rem + 1) i (some m :: rest)).exitStatus = some 1) := by
  subst hlen
  have h1 : localLatRun s msgs.length (some w :: msgs.map some) = .ok (w :: msgs) [] := by
    simp only [localLatRun]
    have := latServerLoop_ok s msgs 0 [] hsz
    rw [List.append_nil] at this
    rw [this]
    rfl
  have h2 : remoteLatRun s msgs.length (some r :: rs.map some) =
      .ok (List.replicate (msgs.length + 1) (fillMsg s)) [] := by
    simp only [remoteLatRun]
    have := remoteLatLoop_ok s rs 0 [] hrs
    rw [List.append_nil, hrlen] at this
    rw [this, List.replicate_succ]
    rfl
  refine ⟨h1, by rw [h1]; rfl, h2, by rw [h2]; rfl, ?_⟩
  intro rem i m rest hm
  constructor <;>
    simp [latServerLoop, remoteLatLoop, hm, LatResult.exitStatus, ClientResult.exitStatus]

/-- Witness for C6 at `s = 4`, `n = 1`, warm-up messages of length
3. -/
theorem spec2_C6_witness :
    localLatRun 4 1 (some [9, 9, 9] :: ([[1, 2, 3, 4]] : List Msg).map some) =
      .ok [[9, 9, 9], [1, 2, 3, 4]] [] ∧
    (localLatRun 4 1 (some [9, 9, 9] :: ([[1, 2, 3, 4]] : List Msg).map some)).exitStatus =
      some 0 ∧
    remoteLatRun 4 1 (some [8, 8, 8] :: ([[5, 6, 7, 8]] : List Msg).map some) =
      .ok (List.replicate (1 + 1) (fillMsg 4)) [] ∧
    (remoteLatRun 4 1 (some [8, 8, 8] :: ([[5, 6, 7, 8]] : List Msg).map some)).exitStatus =
      some 0 ∧
    (∀ (rem i : ℕ) (m : Msg) (rest : List (Option Msg)), m.length ≠ 4 →
      (latServerLoop 4 (rem + 1) i (some m :: rest)).exitStatus = some 1 ∧
      (remoteLatLoop 4 (rem + 1) i (some m :: rest)).exitStatus = some 1) :=
  spec2_C6 4 1 [9, 9, 9] [8, 8, 8] [[1, 2, 3, 4]] [[5, 6, 7, 8]]
    (by decide) (by decide) (by decide) (by decide) (by decide) (by decide)

/-- C7 counterexample: a negative `message_size` argument does not
make the program exit before the transport phase.  With `argc = 4`,
`message_size` string `"-5"` and count string `"10"`, `std::atoi`
yields -5, the conversion to `size_t` wraps it to `2^64 - 5`, the
unsigned comparison with 0 passes, and validation reaches the
transport phase instead of exiting with status 1. -/
theorem spec2_C7_cex :
    argCheck 4 ['-', '5'] ['1', '0'] = .transport ∧
    storedMessageSize ['-', '5'] = 2 ^ 64 - 5 ∧
    MainPhase.exitStatus .transport ≠ some 1 := by
  refine ⟨by decide, by decide, by decide⟩

/-- C7 (amended): a wrong argument count, a zero `message_size`, or a
non-positive count makes every program exit with status 1 before any
transport operation; a negative `message_size` argument, however, is
wrapped by the `size_t` conversion to a huge positive value and passes
validation, so the run proceeds to the transport phase. -/
theorem spec2_C7 (argc : ℕ) (sv cv : Int) :
    (argc ≠ 4 → validatePhase argc sv cv = .usageError ∧
      (validatePhase argc sv cv).exitStatus = some 1) ∧
    (argc = 4 → toSizeT sv = 0 ∨ cv ≤ 0 → validatePhase argc sv cv = .configError ∧
      (validatePhase argc sv cv).exitStatus = some 1) ∧
    (argc = 4 → -(2 ^ 31) ≤ sv → sv < 0 → 0 < cv →
      validatePhase argc sv cv = .transport) := by
  refine ⟨?_, ?_, ?_⟩
  · intro h
    rw [validatePhase, if_pos h]
    exact ⟨rfl, rfl⟩
  · intro h4 hz
    have hz' : toSizeT sv ≤ 0 ∨ cv ≤ 0 := by
      rcases hz with h | h
      · exact Or.inl (le_of_eq h)
      · exact Or.inr h
    rw [validatePhase, if_neg (by simp [h4]), if_pos hz']
    exact ⟨rfl, rfl⟩
  · intro h4 hlo hneg hc
    have hwrap : ¬(toSizeT sv ≤ 0 ∨ cv ≤ 0) := by
      push_neg
      refine ⟨?_, hc⟩
      have : sv % 2 ^ 64 = sv + 2 ^ 64 := by
        omega
      simp only [toSizeT, this]
      omega
    rw [validatePhase, if_neg (by simp [h4]), if_neg hwrap]

/-- Witness for C7: `argc = 3` hits the usage error, a zero size hits
the configuration error, and a negative size slips through to the
transport phase. -/
theorem spec2_C7_witness :
    validatePhase 3 7 7 = .usageError ∧
    validatePhase 4 0 10 = .configError ∧
    validatePhase 4 (-5) 10 = .transport :=
  ⟨((spec2_C7 3 7 7).1 (by norm_num)).1,
    ((spec2_C7 4 0 10).2.1 rfl (Or.inl (by decide))).1,
    (spec2_C7 4 (-5) 10).2.2 rfl (by norm_num) (by norm_num) (by norm_num)⟩

/-- C8 counterexample: there is no defensive minimum denominator for
the elapsed time.  With `message_count = 1` and a measured elapsed
time of 0 microseconds, the denominator of the throughput division is
the raw `elapsed_sec = 0 / 1000000 = 0` — not bounded below by any
positive minimum — refuting that the metrics are computed using a
defensive minimum denominator. -/
theorem spec2_C8_cex :
    (localThrReport 0 64 1).elapsedSec = 0 ∧
    ¬ 0 < (localThrReport 0 64 1).elapsedSec := by
  constructor <;> simp [localThrReport]

/-- C8 (amended): for `message_count == 1` the throughput receiver
still runs to completion — the measured loop performs zero
post-warm-up receives and the process exits 0 — and the metrics are
computed by dividing directly by `elapsed_sec` with no defensive
minimum denominator (the C++ `double` division cannot crash, but
nothing prevents a zero denominator). -/
theorem spec2_C8 (s : ℕ) (e : ℚ) (first : Msg) (rest : List (Option Msg))
    (hs : first.length = s) :
    localThrRun s 1 (some first :: rest) = .ok 1 [] rest ∧
    (localThrRun s 1 (some first :: rest)).exitStatus = some 0 ∧
    (localThrReport e s 1).elapsedSec = e / 1000000 ∧
    (localThrReport e s 1).throughput = ((1 : ℚ) - 1) / (e / 1000000) := by
  have h1 : localThrRun s 1 (some first :: rest) = .ok 1 [] rest := by
    simp [localThrRun, hs, localThrLoop]
  refine ⟨h1, by rw [h1]; rfl, rfl, by simp [localThrReport]⟩

/-- Witness for C8 at `s = 3`, `e = 0`. -/
theorem spec2_C8_witness :
    localThrRun 3 1 (some [1, 2, 3] :: []) = .ok 1 [] [] ∧
    (localThrRun 3 1 (some [1, 2, 3] :: [])).exitStatus = some 0 ∧
    (localThrReport 0 3 1).elapsedSec = 0 / 1000000 ∧
    (localThrReport 0 3 1).throughput = ((1 : ℚ) - 1) / ((0 : ℚ) / 1000000) :=
  spec2_C8 3 0 [1, 2, 3] [] (by decide)

/-- C9 counterexample: with `message_count = 105` the sender emits its
progress lines at the multiples of `⌊105 / 10⌋ = 10`, i.e. at
ordinals 10, 20, …, 100.  At ordinal 10 cumulative progress does not
cross a 10% boundary of 105 (both `⌊9·10/105⌋` and `⌊10·10/105⌋` are
0), yet a line is emitted; at ordinal 11 a 10% boundary is crossed,
yet no line is emitted — refuting that lines appear exactly at the
10% boundary crossings. -/
theorem spec2_C9_cex :
    (remoteThrRun 1 105).2.map ProgressLine.soFar =
      [10, 20, 30, 40, 50, 60, 70, 80, 90, 100] ∧
    crossesTenPercent 105 10 = false ∧
    crossesTenPercent 105 11 = true := by
  refine ⟨by decide, by decide, by decide⟩

/-- C9 (amended): when `message_count > 100` the throughput receiver
and sender emit a progress line exactly at the iterations whose
cumulative ordinal is a multiple of `⌊message_count / 10⌋` (the
receiver over ordinals 2…count, the sender over ordinals 1…count),
showing `⌊ordinal·100/count⌋` percent and the absolute count; when
`message_count ≤ 100` no progress line is emitted.  These emission
points coincide with the 10% boundary crossings only when 10 divides
`message_count`. -/
theorem spec2_C9 (s c : ℕ) (first : Msg) (msgs : List Msg)
    (_hc : 0 < c) (hf : first.length = s) (hlen : msgs.length = c - 1)
    (hsz : ∀ m ∈ msgs, m.length = s) :
    localThrRun s c (some first :: msgs.map some) =
      .ok c (((List.range' 2 (c - 1)).filter (fun k => progressAt c k)).map (mkProgress c)) [] ∧
    (remoteThrRun s c).2 =
      ((List.range' 1 c).filter (fun k => progressAt c k)).map (mkProgress c) ∧
    (c ≤ 100 →
      localThrRun s c (some first :: msgs.map some) = .ok c [] [] ∧
      (remoteThrRun s c).2 = []) := by
  have hrecv : localThrRun s c (some first :: msgs.map some) =
      .ok c (((List.range' 2 (c - 1)).filter (fun k => progressAt c k)).map (mkProgress c)) [] := by
    simp only [localThrRun]
    rw [if_neg (by simp [hf])]
    have := localThrLoop_ok s c msgs 1 [] hsz
    rw [List.append_nil, hlen] at this
    exact this
  have hsend : (remoteThrRun s c).2 =
      ((List.range' 1 c).filter (fun k => progressAt c k)).map (mkProgress c) := by
    rw [remoteThrRun, remoteThrLoop_eq s c c 0]
  refine ⟨hrecv, hsend, ?_⟩
  intro hc100
  have hnone : ∀ k, progressAt c k = false := by
    intro k
    simp [progressAt]
    omega
  constructor
  · rw [hrecv]
    simp [hnone]
  · rw [hsend]
    simp [hnone]

/-- Witness for C9 at `s = 1`, `c = 3`. -/
theorem spec2_C9_witness :
    localThrRun 1 3 (some [0] :: ([[0], [0]] : List Msg).map some) =
      .ok 3 (((List.range' 2 (3 - 1)).filter (fun k => progressAt 3 k)).map (mkProgress 3)) [] ∧
    (remoteThrRun 1 3).2 =
      ((List.range' 1 3).filter (fun k => progressAt 3 k)).map (mkProgress 3) ∧
    (3 ≤ 100 →
      localThrRun 1 3 (some [0] :: ([[0], [0]] : List Msg).map some) = .ok 3 [] [] ∧
      (remoteThrRun 1 3).2 = []) :=
  spec2_C9 1 3 [0] [[0], [0]] (by norm_num) (by decide) (by decide) (by decide)

/-- C10: the numeric CLI arguments follow `std::atoi` semantics.  A
leading non-numeric character parses to 0 (so a wholly non-numeric
string such as `"abc"` is rejected as non-positive); a string with
trailing non-digits such as `"64abc"` is silently accepted as its
leading integer 64; and a negative `message_size` argument such as
`"-5"` parses to -5, wraps through the `size_t` conversion to
`2^64 - 5`, and passes the positivity check, reaching the transport
phase instead of being rejected. -/
theorem spec2_C10 :
    (∀ (c : Char) (cs : List Char), isSpaceChar c = false → c ≠ '-' → c ≠ '+' →
      c.isDigit = false → atoiInt (c :: cs) = 0) ∧
    atoiInt ['a', 'b', 'c'] = 0 ∧
    argCheck 4 ['a', 'b', 'c'] ['1', '0'] = .configError ∧
    atoiInt ['6', '4', 'a', 'b', 'c'] = 64 ∧
    storedMessageSize ['6', '4', 'a', 'b', 'c'] = 64 ∧
    argCheck 4 ['6', '4', 'a', 'b', 'c'] ['1', '0'] = .transport ∧
    atoiInt ['-', '5'] = -5 ∧
    storedMessageSize ['-', '5'] = 2 ^ 64 - 5 ∧
    argCheck 4 ['-', '5'] ['1', '0'] = .transport := by
  refine ⟨?_, by decide, by decide, by decide, by decide, by decide, by decide,
    by decide, by decide⟩
  intro c cs h1 h2 h3 h4
  simp [atoiInt, h1, h2, h3, h4]

/-- Witness for C10's universal part at `c = 'z'`. -/
theorem spec2_C10_witness : atoiInt ['z', '9'] = 0 :=
  spec2_C10.1 'z' ['9'] (by decide) (by decide) (by decide) (by decide)
